import Mathlib

/-!
Shallow embedding of the imapstats program (src/main.go) and proofs about
its criteria compiler, configuration handling, cache layer and stats engine.
-/

/-- The IMAP Seen system flag, `imap.SeenFlag` in the source. -/
def seenFlag : String := "\\Seen"

/-- `maxMailFetchCount` constant from src/main.go. -/
def maxMailFetchCount : Nat := 10

/-- `criteriaCfg` from src/main.go: one declarative matching rule.
Fields mirror the Go struct: `Seen`, `Body`, `Headers`, `Or`, `Fetch`.
(Go's `Headers` map is modelled as an association list; map iteration
order is not relevant to any property proved here.) -/
inductive criteriaCfg where
  | mk (seen : Bool) (body : List String) (headers : List (String × String))
      (orBranches : List criteriaCfg) (fetch : Bool)

def criteriaCfg.seen : criteriaCfg → Bool
  | .mk s _ _ _ _ => s

def criteriaCfg.body : criteriaCfg → List String
  | .mk _ b _ _ _ => b

def criteriaCfg.headers : criteriaCfg → List (String × String)
  | .mk _ _ h _ _ => h

def criteriaCfg.or : criteriaCfg → List criteriaCfg
  | .mk _ _ _ o _ => o

def criteriaCfg.fetch : criteriaCfg → Bool
  | .mk _ _ _ _ f => f

/-- The fields of `imap.SearchCriteria` that this program uses:
`WithoutFlags`, `Body`, `Header` and `Or` (a list of binary pairs). -/
inductive SearchCriteria where
  | mk (withoutFlags : List String) (body : List String)
      (header : List (String × String))
      (orPairs : List (SearchCriteria × SearchCriteria))

def SearchCriteria.withoutFlags : SearchCriteria → List String
  | .mk w _ _ _ => w

def SearchCriteria.body : SearchCriteria → List String
  | .mk _ b _ _ => b

def SearchCriteria.header : SearchCriteria → List (String × String)
  | .mk _ _ h _ => h

def SearchCriteria.orPairs : SearchCriteria → List (SearchCriteria × SearchCriteria)
  | .mk _ _ _ o => o

/-- `imap.NewSearchCriteria()`: a criteria object with every field empty. -/
def NewSearchCriteria : SearchCriteria := .mk [] [] [] []

/-- Models the mutation sequence
`sc.Or = append(sc.Or, [2]*imap.SearchCriteria{}); sc.Or[0][0] = qa; sc.Or[0][1] = qb`
performed by `mkORclause` (the index written is 0, not the appended slot;
in the program `sc.Or` is always empty at this point). -/
def SearchCriteria.setOrPair : SearchCriteria → SearchCriteria → SearchCriteria → SearchCriteria
  | .mk w b h ps, qa, qb =>
    .mk w b h ((ps ++ [(NewSearchCriteria, NewSearchCriteria)]).set 0 (qa, qb))

mutual

/-- `criteriaCfg.toIMAP` from src/main.go: builds a fresh criteria object,
adds the without-Seen restriction unless `seen` is set, copies body and
headers, then delegates the OR list to `mkORclause`. The result is `none`
exactly when the Go code would panic (a singleton OR list somewhere). -/
def toIMAP : criteriaCfg → Option SearchCriteria
  | .mk seen body headers ors _ =>
    mkORclause (.mk (if seen then [] else [seenFlag]) body headers []) ors
termination_by cr => sizeOf cr

/-- `mkORclause` from src/main.go. Empty list: no OR structure. Singleton:
the Go code panics ("OR criteria can't have 1 criterion"), modelled as
`none`. Two branches: one binary pair of the compiled branches. More:
the pair is (compiled head, fresh object carrying the flattening of the
tail). -/
def mkORclause : SearchCriteria → List criteriaCfg → Option SearchCriteria
  | sc, [] => some sc
  | _, [_] => none
  | sc, [a, b] =>
    match toIMAP a, toIMAP b with
    | some qa, some qb => some (sc.setOrPair qa qb)
    | _, _ => none
  | sc, a :: b :: c :: rest =>
    match toIMAP a, mkORclause NewSearchCriteria (b :: c :: rest) with
    | some qa, some wrap => some (sc.setOrPair qa wrap)
    | _, _ => none
termination_by _ ors => sizeOf ors

end

/-- `statsConfig` from src/main.go: statistic name to criterion
(Go map modelled as an association list). -/
abbrev statsConfig := List (String × criteriaCfg)

/-- `config` from src/main.go: accounts → mailbox → statsConfig. -/
structure config where
  accounts : List (String × List (String × statsConfig))

/-- `config.validate` from src/main.go: walks every statsConfig of every
mailbox of every account and rejects a criterion whose `Or` list has
length exactly 1. Only the top level of each criterion tree is inspected. -/
def config.validate (c : config) : Option String :=
  if c.accounts.any (fun acc => acc.2.any (fun mbx => mbx.2.any (fun kv => kv.2.or.length == 1)))
  then some "bad config: OR criteria must have 2 clauses"
  else none

/-- `&criteriaCfg{}`: the zero-valued criterion used as the default
`"unseen_count"` entry. -/
def defaultCriteria : criteriaCfg := .mk false [] [] [] false

/-- `config.getStatsCfg` from src/main.go (the `defaultCfg` local of the
Go code, `statsConfig{"unseen_count": &criteriaCfg{}}`, is written out in
both early-return branches). -/
def config.getStatsCfg (c : config) (user : String) (mailBox : String) : statsConfig :=
  match c.accounts.lookup user with
  | none => [("unseen_count", defaultCriteria)]
  | some mboxes =>
    match mboxes.lookup mailBox with
    | none => [("unseen_count", defaultCriteria)]
    | some cfg =>
      match cfg.lookup "unseen_count" with
      | none => cfg ++ [("unseen_count", defaultCriteria)]
      | some _ => cfg

/-- `fetchConfig` from src/main.go, with file reading and YAML decoding
abstracted: `none` models an absent file (not an error, empty config),
`some cfg` a file that decoded to `cfg`, which is then validated. -/
def fetchConfig (file : Option config) : Except String config :=
  match file with
  | none => .ok { accounts := [] }
  | some cfg =>
    match cfg.validate with
    | some e => .error e
    | none => .ok cfg

/-- `ttlInfinite time.Duration = -1` (in nanoseconds). -/
def ttlInfinite : Int := -1

/-- `time.Second` in nanoseconds. -/
def timeSecond : Int := 1000000000

/-- `time.Minute` in nanoseconds. -/
def timeMinute : Int := 60 * timeSecond

/-- `time.Hour` in nanoseconds. -/
def timeHour : Int := 60 * timeMinute

/-- `strconv.ParseInt(s, 10, 64)`: optional sign, at least one decimal
digit, value within the signed 64-bit range; `none` on any failure. -/
def parseInt64 (s : String) : Option Int :=
  let signed : Int × List Char :=
    match s.data with
    | '+' :: rest => (1, rest)
    | '-' :: rest => (-1, rest)
    | cs => (1, cs)
  if signed.2.isEmpty then none
  else if signed.2.all Char.isDigit then
    let n : Nat := signed.2.foldl (fun acc c => acc * 10 + (c.toNat - 48)) 0
    let v : Int := signed.1 * n
    if v < -(2 ^ 63) ∨ 2 ^ 63 - 1 < v then none else some v
  else none

/-- `strings.HasSuffix(val, c)` for a single-character suffix: the last
character equals `c`. -/
def hasSuffix1 (val : String) (c : Char) : Bool :=
  match val.data.getLast? with
  | some d => d == c
  | none => false

/-- `strings.TrimSuffix` after a successful single-character suffix test:
drop the last character. -/
def trimLast (val : String) : String := ⟨val.data.dropLast⟩

/-- The unit-suffix stripping loop of `cacheTTL`: the Go code ranges over
the map `{s: Second, m: Minute, h: Hour}` and strips the first matching
suffix; since the suffixes are distinct single characters at most one can
match, so the map's random iteration order is immaterial. -/
def stripUnit (val : String) : Int × String :=
  if hasSuffix1 val 's' then (timeSecond, trimLast val)
  else if hasSuffix1 val 'm' then (timeMinute, trimLast val)
  else if hasSuffix1 val 'h' then (timeHour, trimLast val)
  else (timeSecond, val)

/-- Reduction of an integer into the signed 64-bit range
[-9223372036854775808, 9223372036854775807] (i.e. [-2^63, 2^63 - 1]),
as Go's wrapping int64 arithmetic produces. -/
def wrap64 (v : Int) : Int :=
  (v + 9223372036854775808) % 18446744073709551616 - 9223372036854775808

/-- `cacheTTL` from src/main.go, as a function of the `-ttl` flag value.
The final `time.Duration(ttl) * unit` is an int64 product and wraps on
overflow, hence the `wrap64`. -/
def cacheTTL (val : String) : Int :=
  if val = "" then ttlInfinite
  else
    match parseInt64 (stripUnit val).2 with
    | none => ttlInfinite
    | some ttl => wrap64 (ttl * (stripUnit val).1)

/-- `wrap64` is the identity on the signed 64-bit range. -/
theorem wrap64_eq_of_range (v : Int) (h1 : -9223372036854775808 ≤ v)
    (h2 : v ≤ 9223372036854775807) : wrap64 v = v := by
  unfold wrap64
  omega

/-- The error value returned by `readFromCache`: `isNotExist` models
whether `os.IsNotExist`/`errors.Is(err, os.ErrNotExist)` holds for it. -/
structure cacheError where
  isNotExist : Bool
  msg : String
deriving DecidableEq

/-- The observable state of the cache file: filesystem modification time
(nanoseconds) and raw stored bytes. -/
structure cacheFile where
  modTime : Int
  content : String

/-- `readFromCache` from src/main.go, as a function of the `-ttl` flag,
the current time, the cache file name and the cache file state (`none` =
absent, making `os.Stat` fail with a not-exist error). On success the
returned string is the verbatim content streamed to stdout by `io.Copy`. -/
def readFromCache (ttlArg : String) (now : Int) (filename : String)
    (file : Option cacheFile) : Except cacheError String :=
  match file with
  | none =>
    .error { isNotExist := true, msg := "stat " ++ filename ++ ": no such file or directory" }
  | some f =>
    let age := now - f.modTime
    if cacheTTL ttlArg ≠ ttlInfinite ∧ age > cacheTTL ttlArg then
      .error { isNotExist := true, msg := "file does not exist: too old: " ++ filename }
    else
      .ok f.content

/-- The output effect of `writeStats`: what is written to stdout and what
is written to the cache file (`none` = nothing written / file untouched). -/
structure writeEffect where
  stdoutOut : Option String
  cacheOut : Option String
deriving DecidableEq

/-- `writeStats` from src/main.go, as a function of the `-q` and
`-write-cache` flags and the JSON-encoded stats payload. -/
def writeStats (quiet : Bool) (writeCache : Bool) (encoded : String) : writeEffect :=
  if writeCache then
    if quiet then { stdoutOut := none, cacheOut := some encoded }
    else { stdoutOut := some encoded, cacheOut := some encoded }
  else { stdoutOut := some encoded, cacheOut := none }

/-- `letter` from src/main.go: the envelope sample (date, subject). -/
structure letter where
  date : String
  subject : String
deriving DecidableEq

/-- What `fetchMails` does on the network: `fetchReq` is the identifier
list handed to `client.Fetch` (`none` = the early return, no fetch request
issued), `warning` is the truncation warning logged, as
(statistic name, total matches, fetch count). -/
structure fetchReport where
  fetchReq : Option (List Nat)
  warning : Option (String × Nat × Nat)
deriving DecidableEq

/-- `fetchMails` from src/main.go (the network call itself is abstracted;
this captures which identifiers are requested and the warning). -/
def fetchMails (name : String) (ids : List Nat) : fetchReport :=
  if ids.length < 1 then { fetchReq := none, warning := none }
  else if ids.length > maxMailFetchCount then
    { fetchReq := some (ids.take maxMailFetchCount)
      warning := some (name, ids.length, maxMailFetchCount) }
  else { fetchReq := some ids, warning := none }

/-- A value of the `stats` result map: an identifier count or a list of
envelope samples. -/
inductive statVal where
  | count : Nat → statVal
  | letters : List letter → statVal
deriving DecidableEq

/-- One iteration of the statistics loop in `fetchStats` (src/main.go):
compile the criterion, search, record the count, and when `Fetch` is set
run `fetchMails` and record the `"<name>_messages"` envelope list. The
remote store is abstracted by `search` (identifiers returned by
`client.Search`) and `env` (envelope of an identifier); `none` models an
aborted run (the Go code panics on a nested singleton OR). The
accumulator carries the result entries and the warnings logged so far. -/
def fetchStatsStep (search : SearchCriteria → List Nat) (env : Nat → letter)
    (acc : Option (List (String × statVal) × List (String × Nat × Nat)))
    (entry : String × criteriaCfg) :
    Option (List (String × statVal) × List (String × Nat × Nat)) :=
  match acc with
  | none => none
  | some (st, warns) =>
    match toIMAP entry.2 with
    | none => none
    | some q =>
      let ids := search q
      let st1 := st ++ [(entry.1, .count ids.length)]
      if entry.2.fetch then
        let fr := fetchMails entry.1 ids
        let letters := (fr.fetchReq.getD []).map env
        some (st1 ++ [(entry.1 ++ "_messages", .letters letters)], warns ++ fr.warning.toList)
      else some (st1, warns)

/-- The statistics loop of `fetchStats` from src/main.go over a resolved
statsConfig (connection setup and teardown abstracted away). -/
def fetchStats (search : SearchCriteria → List Nat) (env : Nat → letter)
    (cfg : statsConfig) : Option (List (String × statVal) × List (String × Nat × Nat)) :=
  cfg.foldl (fetchStatsStep search env) (some ([], []))

mutual

/-- All nodes of a compiled query tree, descending through the OR pairs. -/
def queryNodes : SearchCriteria → List SearchCriteria
  | .mk w b h ps => .mk w b h ps :: queryNodesPairs ps
termination_by q => sizeOf q

/-- All nodes of both components of each OR pair. -/
def queryNodesPairs : List (SearchCriteria × SearchCriteria) → List SearchCriteria
  | [] => []
  | (p1, p2) :: rest => queryNodes p1 ++ queryNodes p2 ++ queryNodesPairs rest
termination_by ps => sizeOf ps

end

/-! ## Helper lemmas -/

theorem setOrPair_withoutFlags (sc qa qb : SearchCriteria) :
    (sc.setOrPair qa qb).withoutFlags = sc.withoutFlags := by
  cases sc
  simp [SearchCriteria.setOrPair, SearchCriteria.withoutFlags]

theorem setOrPair_body (sc qa qb : SearchCriteria) :
    (sc.setOrPair qa qb).body = sc.body := by
  cases sc
  simp [SearchCriteria.setOrPair, SearchCriteria.body]

theorem setOrPair_header (sc qa qb : SearchCriteria) :
    (sc.setOrPair qa qb).header = sc.header := by
  cases sc
  simp [SearchCriteria.setOrPair, SearchCriteria.header]

theorem setOrPair_orPairs (sc qa qb : SearchCriteria) (h : sc.orPairs = []) :
    (sc.setOrPair qa qb).orPairs = [(qa, qb)] := by
  cases sc with
  | mk w b hh ps =>
    simp only [SearchCriteria.orPairs] at h
    subst h
    simp [SearchCriteria.setOrPair, SearchCriteria.orPairs]

/-- A successful `mkORclause` only touches the OR field of its argument. -/
theorem mkORclause_fields (sc : SearchCriteria) (ors : List criteriaCfg) (q : SearchCriteria)
    (h : mkORclause sc ors = some q) :
    q.withoutFlags = sc.withoutFlags ∧ q.body = sc.body ∧ q.header = sc.header := by
  match ors with
  | [] =>
    simp only [mkORclause, Option.some.injEq] at h
    subst h; exact ⟨rfl, rfl, rfl⟩
  | [a] => simp [mkORclause] at h
  | [a, b] =>
    simp only [mkORclause] at h
    cases ha : toIMAP a with
    | none => rw [ha] at h; simp at h
    | some qa =>
      cases hb : toIMAP b with
      | none => rw [ha, hb] at h; simp at h
      | some qb =>
        rw [ha, hb] at h
        simp only [Option.some.injEq] at h
        subst h
        exact ⟨setOrPair_withoutFlags .., setOrPair_body .., setOrPair_header ..⟩
  | a :: b :: c :: rest =>
    simp only [mkORclause] at h
    cases ha : toIMAP a with
    | none => rw [ha] at h; simp at h
    | some qa =>
      cases hw : mkORclause NewSearchCriteria (b :: c :: rest) with
      | none => rw [ha, hw] at h; simp at h
      | some wrap =>
        rw [ha, hw] at h
        simp only [Option.some.injEq] at h
        subst h
        exact ⟨setOrPair_withoutFlags .., setOrPair_body .., setOrPair_header ..⟩

/-- A successful `toIMAP` carries the node's own fields. -/
theorem toIMAP_fields (cr : criteriaCfg) (q : SearchCriteria) (h : toIMAP cr = some q) :
    q.withoutFlags = (if cr.seen then [] else [seenFlag]) ∧
    q.body = cr.body ∧ q.header = cr.headers := by
  cases cr with
  | mk s b hh ors f =>
    simp only [toIMAP] at h
    have hf := mkORclause_fields _ _ _ h
    simpa [criteriaCfg.seen, criteriaCfg.body, criteriaCfg.headers,
      SearchCriteria.withoutFlags, SearchCriteria.body, SearchCriteria.header] using hf

/-- Shape of `mkORclause` on an empty OR list. -/
theorem mkORclause_nil (sc : SearchCriteria) (q : SearchCriteria)
    (h : mkORclause sc [] = some q) : q = sc := by
  simp only [mkORclause, Option.some.injEq] at h
  exact h.symm

/-- Shape of `mkORclause` on a two-element OR list. -/
theorem mkORclause_two (sc : SearchCriteria) (a b : criteriaCfg) (q : SearchCriteria)
    (hps : sc.orPairs = []) (h : mkORclause sc [a, b] = some q) :
    ∃ qa qb, toIMAP a = some qa ∧ toIMAP b = some qb ∧ q.orPairs = [(qa, qb)] := by
  simp only [mkORclause] at h
  cases ha : toIMAP a with
  | none => rw [ha] at h; simp at h
  | some qa =>
    cases hb : toIMAP b with
    | none => rw [ha, hb] at h; simp at h
    | some qb =>
      rw [ha, hb] at h
      simp only [Option.some.injEq] at h
      subst h
      exact ⟨qa, qb, rfl, rfl, setOrPair_orPairs _ _ _ hps⟩

/-- Shape of `mkORclause` on an OR list with at least three elements. -/
theorem mkORclause_many (sc : SearchCriteria) (a b c : criteriaCfg) (rest : List criteriaCfg)
    (q : SearchCriteria) (hps : sc.orPairs = [])
    (h : mkORclause sc (a :: b :: c :: rest) = some q) :
    ∃ qa wrap, toIMAP a = some qa ∧
      mkORclause NewSearchCriteria (b :: c :: rest) = some wrap ∧
      q.orPairs = [(qa, wrap)] := by
  simp only [mkORclause] at h
  cases ha : toIMAP a with
  | none => rw [ha] at h; simp at h
  | some qa =>
    cases hw : mkORclause NewSearchCriteria (b :: c :: rest) with
    | none => rw [ha, hw] at h; simp at h
    | some wrap =>
      rw [ha, hw] at h
      simp only [Option.some.injEq] at h
      subst h
      exact ⟨qa, wrap, rfl, rfl, setOrPair_orPairs _ _ _ hps⟩

theorem NewSearchCriteria_orPairs : NewSearchCriteria.orPairs = [] := rfl

theorem toIMAP_mk (s : Bool) (b : List String) (hh : List (String × String))
    (ors : List criteriaCfg) (f : Bool) :
    toIMAP (.mk s b hh ors f) =
      mkORclause (.mk (if s then [] else [seenFlag]) b hh []) ors := by
  simp only [toIMAP]

/-! ## Claim theorems -/

/-- C1: for a criterion with at least three OR branches, the compiled
query's OR structure is the right-fold binary chain — its single OR pair
is (compiled first branch, wrap), where wrap is a fresh query object whose
own OR structure is the recursive flattening of the remaining branches; in
particular with exactly three branches a, b, c the pair is
(compile a, X) with X's pair (compile b, compile c); with exactly two
branches it is the single binary pair of the compiled branches; with no
branches there is no OR structure. -/
theorem toIMAP_or_fold (cr : criteriaCfg) (q : SearchCriteria) (hq : toIMAP cr = some q) :
    (cr.or = [] → q.orPairs = []) ∧
    (∀ a b, cr.or = [a, b] →
      ∃ qa qb, toIMAP a = some qa ∧ toIMAP b = some qb ∧ q.orPairs = [(qa, qb)]) ∧
    (∀ a b c rest, cr.or = a :: b :: c :: rest →
      ∃ qa wrap, toIMAP a = some qa ∧
        mkORclause NewSearchCriteria (b :: c :: rest) = some wrap ∧
        q.orPairs = [(qa, wrap)] ∧
        wrap.withoutFlags = [] ∧ wrap.body = [] ∧ wrap.header = []) ∧
    (∀ a b c, cr.or = [a, b, c] →
      ∃ qa qb qc wrap, toIMAP a = some qa ∧ toIMAP b = some qb ∧ toIMAP c = some qc ∧
        q.orPairs = [(qa, wrap)] ∧ wrap.orPairs = [(qb, qc)]) := by
  cases cr with
  | mk s bdy hh ors f =>
    rw [toIMAP_mk] at hq
    have hsc : (SearchCriteria.mk (if s then [] else [seenFlag]) bdy hh []).orPairs = [] := rfl
    simp only [criteriaCfg.or]
    refine ⟨?_, ?_, ?_, ?_⟩
    · intro h0
      subst h0
      rw [mkORclause_nil _ _ hq]
      exact hsc
    · intro a b h2
      subst h2
      exact mkORclause_two _ _ _ _ hsc hq
    · intro a b c rest h3
      subst h3
      obtain ⟨qa, wrap, ha, hw, hpair⟩ := mkORclause_many _ _ _ _ _ _ hsc hq
      obtain ⟨hwf, hwb, hwh⟩ := mkORclause_fields _ _ _ hw
      exact ⟨qa, wrap, ha, hw, hpair, hwf, hwb, hwh⟩
    · intro a b c h3
      subst h3
      obtain ⟨qa, wrap, ha, hw, hpair⟩ := mkORclause_many _ _ _ _ _ _ hsc hq
      obtain ⟨qb, qc, hb, hc, hwp⟩ := mkORclause_two _ _ _ _ NewSearchCriteria_orPairs hw
      exact ⟨qa, qb, qc, wrap, ha, hb, hc, hpair, hwp⟩

def qdW : SearchCriteria := .mk [seenFlag] [] [] []

def wrapW : SearchCriteria := .mk [] [] [] [(qdW, qdW)]

def qW1 : SearchCriteria := .mk [seenFlag] [] [] [(qdW, wrapW)]

def crW1 : criteriaCfg := .mk false [] [] [defaultCriteria, defaultCriteria, defaultCriteria] false

/-- C1 witness: a concrete three-branch OR compiles to the right-fold
chain. -/
theorem toIMAP_or_fold_witness :
    toIMAP crW1 = some qW1 ∧ qW1.orPairs = [(qdW, wrapW)] ∧ wrapW.orPairs = [(qdW, qdW)] := by
  have hd : toIMAP defaultCriteria = some qdW := by
    simp [defaultCriteria, qdW, toIMAP, mkORclause]
  have hc : toIMAP crW1 = some qW1 := by
    simp [crW1, qW1, wrapW, qdW, defaultCriteria, toIMAP, mkORclause, NewSearchCriteria,
      SearchCriteria.setOrPair]
  obtain ⟨qa, qb, qc, wrap, ha, hb, hcb, hpair, hwp⟩ :=
    (toIMAP_or_fold crW1 qW1 hc).2.2.2 defaultCriteria defaultCriteria defaultCriteria
      (by simp [crW1, criteriaCfg.or])
  rw [hd] at ha hb hcb
  obtain rfl : qdW = qa := Option.some.inj ha
  obtain rfl : qdW = qb := Option.some.inj hb
  obtain rfl : qdW = qc := Option.some.inj hcb
  have hq1 : qW1.orPairs = [(qdW, wrapW)] := rfl
  rw [hq1] at hpair
  have hww : wrapW = wrap := by
    have := List.head_eq_of_cons_eq hpair.symm
    exact (congrArg Prod.snd this).symm
  rw [← hww] at hwp
  exact ⟨hc, hq1, hwp⟩

/-- A criterion whose own OR list is a singleton: compiles to `none`
(the Go code panics there). -/
def crSingleton : criteriaCfg := .mk false [] [] [defaultCriteria] false

/-- A criterion whose OR list is fine (length 2) but whose first branch
has a singleton OR list. -/
def crNestedBad : criteriaCfg := .mk false [] [] [crSingleton, defaultCriteria] false

/-- A configuration whose only singleton OR list sits nested inside the
OR branches of a top-level criterion. -/
def cfgNestedBad : config :=
  { accounts := [("user", [("INBOX", [("bad", crNestedBad)])])] }

/-- C2 counterexample: a configuration containing a Criterion with a
singleton OR list at nesting depth 1 passes validation, so loading
succeeds — the claim requires the load to fail for singletons at any
nesting depth. (Query compilation of the offending criterion does fail —
the branch is not silently dropped — but only later, at stats-collection
time, as a panic rather than a load-time validation error.) -/
theorem validate_nested_counterexample :
    cfgNestedBad.validate = none ∧
    fetchConfig (some cfgNestedBad) = .ok cfgNestedBad ∧
    toIMAP crNestedBad = none := by
  refine ⟨rfl, rfl, ?_⟩
  simp [crNestedBad, crSingleton, defaultCriteria, toIMAP, mkORclause]

/-- C2 (amended): a singleton OR list on a TOP-LEVEL criterion of the
configuration makes loading fail with the named validation error
"bad config: OR criteria must have 2 clauses" (validation is pure, before
any network activity), and query compilation fails on any criterion whose
own OR list is a singleton, so the lone branch is never silently dropped;
but validation inspects only the top level of each criterion tree, so a
configuration whose only singleton OR list is nested inside another
criterion's OR branches loads successfully and fails only at
stats-collection time. -/
theorem validate_singleton_or (c : config) :
    ((∃ acc ∈ c.accounts, ∃ mbx ∈ acc.2, ∃ kv ∈ mbx.2, kv.2.or.length = 1) →
      c.validate = some "bad config: OR criteria must have 2 clauses" ∧
      fetchConfig (some c) = .error "bad config: OR criteria must have 2 clauses") ∧
    (∀ cr : criteriaCfg, cr.or.length = 1 → toIMAP cr = none) := by
  constructor
  · rintro ⟨acc, hacc, mbx, hmbx, kv, hkv, h1⟩
    have hany : c.accounts.any
        (fun acc => acc.2.any (fun mbx => mbx.2.any (fun kv => kv.2.or.length == 1))) = true := by
      simp only [List.any_eq_true]
      exact ⟨acc, hacc, mbx, hmbx, kv, hkv, by simp [h1]⟩
    refine ⟨by simp [config.validate, hany], ?_⟩
    simp [fetchConfig, config.validate, hany]
  · intro cr h1
    cases cr with
    | mk s b hh ors f =>
      simp only [criteriaCfg.or] at h1
      obtain ⟨x, rfl⟩ := List.length_eq_one.mp h1
      simp [toIMAP_mk, mkORclause]

/-- A configuration with a singleton OR list directly on a top-level
criterion. -/
def cfgTopBad : config :=
  { accounts := [("user", [("INBOX", [("bad", crSingleton)])])] }

/-- C2 witness: the amended claim at a concrete configuration. -/
theorem validate_singleton_or_witness :
    cfgTopBad.validate = some "bad config: OR criteria must have 2 clauses" ∧
    fetchConfig (some cfgTopBad) = .error "bad config: OR criteria must have 2 clauses" ∧
    toIMAP crSingleton = none := by
  have h := validate_singleton_or cfgTopBad
  have h1 := h.1 ⟨("user", [("INBOX", [("bad", crSingleton)])]), by simp [cfgTopBad],
    ("INBOX", [("bad", crSingleton)]), by simp,
    ("bad", crSingleton), by simp, by simp [crSingleton, criteriaCfg.or]⟩
  exact ⟨h1.1, h1.2, h.2 crSingleton (by simp [crSingleton, criteriaCfg.or])⟩

/-- Lookup over an assoc list with a single entry appended. -/
theorem lookup_append_single (l : List (String × criteriaCfg)) (k k2 : String) (v : criteriaCfg) :
    (l ++ [(k2, v)]).lookup k =
      match l.lookup k with
      | some w => some w
      | none => if k = k2 then some v else none := by
  induction l with
  | nil =>
    by_cases hk : k = k2
    · have hb : (k == k2) = true := by simpa using hk
      simp [List.lookup, hk, hb]
    · have hb : (k == k2) = false := by simpa using hk
      simp [List.lookup, hk, hb]
  | cons p t ih =>
    obtain ⟨pk, pv⟩ := p
    by_cases hk : k = pk
    · have hb : (k == pk) = true := by simpa using hk
      simp [List.lookup, hb]
    · have hb : (k == pk) = false := by simpa using hk
      simp only [List.cons_append, List.lookup, hb]
      exact ih

/-- C3: for every configuration and every (account, mailbox) pair, the
resolved statsConfig always has an `"unseen_count"` entry; when the user
configuration lacked one — including when the account or the mailbox is
absent, or the configuration file did not exist — the zero-valued default
criterion (unseen, no body terms, no headers, no OR branches, no fetch)
is synthesized under that key, and every other configured statistic is
looked up unchanged. -/
theorem getStatsCfg_unseen_default (c : config) (user mailBox : String) :
    (((c.getStatsCfg user mailBox).lookup "unseen_count").isSome = true) ∧
    (∀ mboxes cfg, c.accounts.lookup user = some mboxes → mboxes.lookup mailBox = some cfg →
      ((cfg.lookup "unseen_count" = none →
          (c.getStatsCfg user mailBox).lookup "unseen_count" = some defaultCriteria) ∧
        (∀ k, k ≠ "unseen_count" →
          (c.getStatsCfg user mailBox).lookup k = cfg.lookup k))) ∧
    (c.accounts.lookup user = none →
      c.getStatsCfg user mailBox = [("unseen_count", defaultCriteria)]) ∧
    (∀ mboxes, c.accounts.lookup user = some mboxes → mboxes.lookup mailBox = none →
      c.getStatsCfg user mailBox = [("unseen_count", defaultCriteria)]) ∧
    fetchConfig none = .ok { accounts := [] } ∧
    defaultCriteria.seen = false ∧ defaultCriteria.body = [] ∧
    defaultCriteria.headers = [] ∧ defaultCriteria.or = [] ∧ defaultCriteria.fetch = false := by
  refine ⟨?_, ?_, ?_, ?_, rfl, rfl, rfl, rfl, rfl, rfl⟩
  · unfold config.getStatsCfg
    cases hu : c.accounts.lookup user with
    | none => rfl
    | some mboxes =>
      dsimp only
      cases hm : mboxes.lookup mailBox with
      | none => rfl
      | some cfg =>
        dsimp only
        cases hc : cfg.lookup "unseen_count" with
        | none =>
          dsimp only
          rw [lookup_append_single]
          simp [hc]
        | some v => simp [hc]
  · intro mboxes cfg hu hm
    constructor
    · intro hc
      unfold config.getStatsCfg
      rw [hu]; dsimp only
      rw [hm]; dsimp only
      rw [hc]; dsimp only
      rw [lookup_append_single]
      simp [hc]
    · intro k hk
      unfold config.getStatsCfg
      rw [hu]; dsimp only
      rw [hm]; dsimp only
      cases hc : cfg.lookup "unseen_count" with
      | none =>
        dsimp only
        rw [lookup_append_single]
        cases hck : cfg.lookup k with
        | none => simp [hck, hk]
        | some w => simp [hck]
      | some v => rfl
  · intro hu
    unfold config.getStatsCfg
    rw [hu]
  · intro mboxes hu hm
    unfold config.getStatsCfg
    rw [hu]; dsimp only
    rw [hm]

/-- A criterion with one header filter, as in the repository's own tests. -/
def crImportant : criteriaCfg := .mk false [] [("From", "boss@bar.com")] [] false

/-- A configuration with one explicit statistic and no explicit
`"unseen_count"`. -/
def cfgW3 : config :=
  { accounts := [("foo@bar.com", [("INBOX", [("important_count", crImportant)])])] }

/-- C3 witness: the default is injected and the explicit statistic is
preserved on a concrete configuration. -/
theorem getStatsCfg_unseen_default_witness :
    (cfgW3.getStatsCfg "foo@bar.com" "INBOX").lookup "unseen_count" = some defaultCriteria ∧
    (cfgW3.getStatsCfg "foo@bar.com" "INBOX").lookup "important_count" = some crImportant ∧
    (cfgW3.getStatsCfg "other" "INBOX") = [("unseen_count", defaultCriteria)] := by
  have h := getStatsCfg_unseen_default cfgW3 "foo@bar.com" "INBOX"
  have hpair := h.2.1 [("INBOX", [("important_count", crImportant)])]
    [("important_count", crImportant)] (by rfl) (by rfl)
  refine ⟨hpair.1 (by rfl), ?_, ?_⟩
  · rw [hpair.2 "important_count" (by decide)]
    rfl
  · exact (getStatsCfg_unseen_default cfgW3 "other" "INBOX").2.2.1 (by rfl)

/-- C4 (amended): TTL parsing: the empty string is the infinite sentinel;
a bare integer is seconds; a single trailing 's', 'm' or 'h' is stripped
and selects seconds, minutes or hours ("81" → 81 s, "10s" → 10 s,
"15m" → 15 min, "33h" → 33 h); any string whose remainder after
suffix-stripping is not a parsable integer yields the infinite sentinel,
not an error; and the seconds/minutes/hours product is computed in
wrapping signed 64-bit duration arithmetic, so it equals the exact
mathematical product only when that product lies within the int64
range. -/
theorem cacheTTL_spec :
    cacheTTL "" = ttlInfinite ∧
    cacheTTL "81" = 81 * timeSecond ∧
    cacheTTL "10s" = 10 * timeSecond ∧
    cacheTTL "15m" = 15 * timeMinute ∧
    cacheTTL "33h" = 33 * timeHour ∧
    (∀ val : String, val ≠ "" → parseInt64 (stripUnit val).2 = none →
      cacheTTL val = ttlInfinite) ∧
    (∀ val : String, ∀ n : Int, val ≠ "" → parseInt64 (stripUnit val).2 = some n →
      cacheTTL val = wrap64 (n * (stripUnit val).1)) ∧
    (∀ val : String, ∀ n : Int, val ≠ "" → parseInt64 (stripUnit val).2 = some n →
      -9223372036854775808 ≤ n * (stripUnit val).1 →
      n * (stripUnit val).1 ≤ 9223372036854775807 →
      cacheTTL val = n * (stripUnit val).1) ∧
    (∀ val : String, hasSuffix1 val 's' = true → stripUnit val = (timeSecond, trimLast val)) ∧
    (∀ val : String, hasSuffix1 val 's' = false → hasSuffix1 val 'm' = true →
      stripUnit val = (timeMinute, trimLast val)) ∧
    (∀ val : String, hasSuffix1 val 's' = false → hasSuffix1 val 'm' = false →
      hasSuffix1 val 'h' = true → stripUnit val = (timeHour, trimLast val)) ∧
    (∀ val : String, hasSuffix1 val 's' = false → hasSuffix1 val 'm' = false →
      hasSuffix1 val 'h' = false → stripUnit val = (timeSecond, val)) := by
  refine ⟨rfl, by decide, by decide, by decide, by decide, ?_, ?_, ?_, ?_, ?_, ?_, ?_⟩
  · intro val hne hparse
    unfold cacheTTL
    rw [if_neg hne, hparse]
  · intro val n hne hparse
    unfold cacheTTL
    rw [if_neg hne, hparse]
  · intro val n hne hparse h1 h2
    unfold cacheTTL
    rw [if_neg hne, hparse]
    exact wrap64_eq_of_range _ h1 h2
  · intro val hs
    unfold stripUnit
    rw [if_pos hs]
  · intro val hs hm
    unfold stripUnit
    rw [if_neg (by simp [hs]), if_pos hm]
  · intro val hs hm hh
    unfold stripUnit
    rw [if_neg (by simp [hs]), if_neg (by simp [hm]), if_pos hh]
  · intro val hs hm hh
    unfold stripUnit
    rw [if_neg (by simp [hs]), if_neg (by simp [hm]), if_neg (by simp [hh])]

/-- C4 counterexample: TTL strings whose nanosecond total overflows the
signed 64-bit range do not map to "that many seconds/hours": the program
computes the wrapped int64 product, so "9999999h" yields the negative
duration -893491747419103232 ns instead of 9999999 hours
(35999996400000000000 ns). -/
theorem cacheTTL_overflow_counterexample :
    cacheTTL "9999999h" = -893491747419103232 ∧
    (9999999 : Int) * timeHour = 35999996400000000000 ∧
    cacheTTL "9999999h" ≠ 9999999 * timeHour := by
  refine ⟨by decide, by decide, by decide⟩

/-- C4 witness: a malformed TTL string falls open to the infinite
sentinel, an in-range bare integer is interpreted as exactly that many
seconds, and an overflowing suffixed integer yields the wrapped 64-bit
product. -/
theorem cacheTTL_spec_witness :
    cacheTTL "zz" = ttlInfinite ∧ cacheTTL "42" = 42 * timeSecond ∧
    cacheTTL "9999999h" = wrap64 (9999999 * timeHour) := by
  refine ⟨cacheTTL_spec.2.2.2.2.2.1 "zz" (by decide) (by decide), ?_, ?_⟩
  · have h := cacheTTL_spec.2.2.2.2.2.2.2.1 "42" 42 (by decide) (by decide)
      (by decide) (by decide)
    rw [h]
    decide
  · have h := cacheTTL_spec.2.2.2.2.2.2.1 "9999999h" 9999999 (by decide) (by decide)
    rw [h]
    decide

/-- C5: in cache-only read mode, with modification time t0 and a finite
configured TTL T: reading at time t0 + T + 1 fails with the not-found
error; reading at t0 + T - 1 succeeds and returns the exact cached bytes
verbatim; and with no TTL configured (the infinite sentinel) the cache
never expires. -/
theorem readFromCache_ttl (ttlArg : String) (t0 : Int) (filename content : String)
    (hfin : cacheTTL ttlArg ≠ ttlInfinite) :
    readFromCache ttlArg (t0 + cacheTTL ttlArg + 1) filename (some ⟨t0, content⟩) =
      .error { isNotExist := true, msg := "file does not exist: too old: " ++ filename } ∧
    readFromCache ttlArg (t0 + cacheTTL ttlArg - 1) filename (some ⟨t0, content⟩) =
      .ok content ∧
    (∀ ttl2 : String, ∀ now : Int, cacheTTL ttl2 = ttlInfinite →
      readFromCache ttl2 now filename (some ⟨t0, content⟩) = .ok content) := by
  refine ⟨?_, ?_, ?_⟩
  · unfold readFromCache
    dsimp only
    rw [if_pos ⟨hfin, by omega⟩]
  · unfold readFromCache
    dsimp only
    rw [if_neg]
    rintro ⟨_, hgt⟩
    omega
  · intro ttl2 now hinf
    unfold readFromCache
    dsimp only
    rw [if_neg]
    rintro ⟨hne, _⟩
    exact hne hinf

/-- C5 witness: the TTL boundary at a concrete TTL of ten seconds and a
concrete cache file. -/
theorem readFromCache_ttl_witness :
    readFromCache "10s" (0 + cacheTTL "10s" + 1) "user.INBOX" (some ⟨0, "payload"⟩) =
      .error { isNotExist := true, msg := "file does not exist: too old: " ++ "user.INBOX" } ∧
    readFromCache "10s" (0 + cacheTTL "10s" - 1) "user.INBOX" (some ⟨0, "payload"⟩) =
      .ok "payload" ∧
    readFromCache "" 999999999999 "user.INBOX" (some ⟨0, "payload"⟩) = .ok "payload" := by
  have h := readFromCache_ttl "10s" 0 "user.INBOX" "payload" (by decide)
  exact ⟨h.1, h.2.1, h.2.2 "" 999999999999 (by decide)⟩

/-- C6: in cache-only read mode a stale cache file (age beyond a finite
configured TTL) and an absent cache file are reported through the same
not-found error kind — a caller inspecting only the kind cannot tell them
apart — and the stale-case error message names the cache file path. -/
theorem readFromCache_notfound (ttlArg : String) (now t0 : Int) (filename content : String)
    (hfin : cacheTTL ttlArg ≠ ttlInfinite) (hstale : now - t0 > cacheTTL ttlArg) :
    readFromCache ttlArg now filename (some ⟨t0, content⟩) =
      .error { isNotExist := true, msg := "file does not exist: too old: " ++ filename } ∧
    readFromCache ttlArg now filename none =
      .error { isNotExist := true, msg := "stat " ++ filename ++ ": no such file or directory" } ∧
    (∀ e1 e2 : cacheError,
      readFromCache ttlArg now filename (some ⟨t0, content⟩) = .error e1 →
      readFromCache ttlArg now filename none = .error e2 →
      e1.isNotExist = true ∧ e2.isNotExist = true) := by
  have hstaleEq : readFromCache ttlArg now filename (some ⟨t0, content⟩) =
      .error { isNotExist := true, msg := "file does not exist: too old: " ++ filename } := by
    unfold readFromCache
    dsimp only
    rw [if_pos ⟨hfin, hstale⟩]
  have habs : readFromCache ttlArg now filename none =
      .error { isNotExist := true, msg := "stat " ++ filename ++ ": no such file or directory" } := by
    unfold readFromCache
    rfl
  refine ⟨hstaleEq, habs, ?_⟩
  intro e1 e2 h1 h2
  rw [hstaleEq] at h1
  rw [habs] at h2
  cases h1
  cases h2
  exact ⟨rfl, rfl⟩

/-- C6 witness: staleness and absence at a concrete TTL, time and path. -/
theorem readFromCache_notfound_witness :
    readFromCache "5m" 301000000000 "user.INBOX" (some ⟨0, "payload"⟩) =
      .error { isNotExist := true, msg := "file does not exist: too old: " ++ "user.INBOX" } ∧
    readFromCache "5m" 301000000000 "user.INBOX" none =
      .error
        { isNotExist := true, msg := "stat " ++ "user.INBOX" ++ ": no such file or directory" } := by
  have h := readFromCache_notfound "5m" 301000000000 0 "user.INBOX" "payload"
    (by decide) (by decide)
  exact ⟨h.1, h.2.1⟩

/-- C7: for a statistic with fetch enabled, when the search returns more
than `maxMailFetchCount = 10` identifiers the engine requests envelopes
for exactly the first 10 identifiers in search order and logs exactly one
truncation warning carrying the statistic name, the total match count and
the fetch count 10; with at most 10 identifiers all of them are requested
and no warning is logged. -/
theorem fetch_truncation (search : SearchCriteria → List Nat) (env : Nat → letter)
    (st : List (String × statVal)) (warns : List (String × Nat × Nat))
    (k : String) (cr : criteriaCfg) (q : SearchCriteria)
    (hq : toIMAP cr = some q) (hf : cr.fetch = true) :
    ((search q).length > maxMailFetchCount →
      (fetchMails k (search q)).fetchReq = some ((search q).take maxMailFetchCount) ∧
      ((search q).take maxMailFetchCount).length = maxMailFetchCount ∧
      (fetchMails k (search q)).warning = some (k, (search q).length, maxMailFetchCount) ∧
      fetchStatsStep search env (some (st, warns)) (k, cr) =
        some (st ++ [(k, .count (search q).length),
            (k ++ "_messages", .letters (((search q).take maxMailFetchCount).map env))],
          warns ++ [(k, (search q).length, maxMailFetchCount)])) ∧
    ((search q).length ≤ maxMailFetchCount →
      (fetchMails k (search q)).warning = none ∧
      fetchStatsStep search env (some (st, warns)) (k, cr) =
        some (st ++ [(k, .count (search q).length),
            (k ++ "_messages", .letters ((search q).map env))],
          warns)) ∧
    (1 ≤ (search q).length → (search q).length ≤ maxMailFetchCount →
      (fetchMails k (search q)).fetchReq = some (search q)) := by
  refine ⟨?_, ?_, ?_⟩
  · intro hgt
    have hmails : fetchMails k (search q) =
        { fetchReq := some ((search q).take maxMailFetchCount)
          warning := some (k, (search q).length, maxMailFetchCount) } := by
      unfold fetchMails
      rw [if_neg (by omega), if_pos hgt]
    refine ⟨by rw [hmails], by simp [List.length_take]; omega, by rw [hmails], ?_⟩
    unfold fetchStatsStep
    rw [hq]
    dsimp only
    rw [if_pos hf, hmails]
    simp
  · intro hle
    by_cases h0 : (search q).length < 1
    · have hnil : search q = [] := List.length_eq_zero.mp (by omega)
      have hmails : fetchMails k (search q) = { fetchReq := none, warning := none } := by
        unfold fetchMails
        rw [if_pos h0]
      refine ⟨by rw [hmails], ?_⟩
      unfold fetchStatsStep
      rw [hq]
      dsimp only
      rw [if_pos hf, hmails, hnil]
      simp
    · have hmails : fetchMails k (search q) =
          { fetchReq := some (search q), warning := none } := by
        unfold fetchMails
        rw [if_neg h0, if_neg (by omega)]
      refine ⟨by rw [hmails], ?_⟩
      unfold fetchStatsStep
      rw [hq]
      dsimp only
      rw [if_pos hf, hmails]
      simp
  · intro h1 hle
    unfold fetchMails
    rw [if_neg (by omega), if_neg (by omega)]

/-- A criterion with fetch enabled and no OR branches. -/
def crFetch : criteriaCfg := .mk false [] [] [] true

/-- C7 witness: fifteen matching identifiers are truncated to the first
ten with one warning; three identifiers are all fetched with none. -/
theorem fetch_truncation_witness :
    (fetchMails "inbox_count" (List.range 15)).fetchReq = some (List.range 10) ∧
    (fetchMails "inbox_count" (List.range 15)).warning = some ("inbox_count", 15, 10) ∧
    (fetchMails "inbox_count" (List.range 3)).fetchReq = some (List.range 3) ∧
    (fetchMails "inbox_count" (List.range 3)).warning = none := by
  have hq : toIMAP crFetch = some (.mk [seenFlag] [] [] []) := by
    simp [crFetch, toIMAP, mkORclause]
  have h15 := fetch_truncation (fun _ => List.range 15) (fun _ => ⟨"", ""⟩) [] []
    "inbox_count" crFetch (.mk [seenFlag] [] [] []) hq rfl
  have h3 := fetch_truncation (fun _ => List.range 3) (fun _ => ⟨"", ""⟩) [] []
    "inbox_count" crFetch (.mk [seenFlag] [] [] []) hq rfl
  obtain ⟨ha, _, hb, _⟩ := h15.1 (by decide)
  refine ⟨?_, hb, h3.2.2 (by decide) (by decide), (h3.2.1 (by decide)).1⟩
  rw [ha]
  decide

/-- C9: for a statistic with fetch enabled whose search returns no
identifiers, no fetch request is issued to the remote store, yet the
result still gains the `"<name>_messages"` key bound to an empty envelope
list. -/
theorem fetch_empty_ids (search : SearchCriteria → List Nat) (env : Nat → letter)
    (st : List (String × statVal)) (warns : List (String × Nat × Nat))
    (k : String) (cr : criteriaCfg) (q : SearchCriteria)
    (hq : toIMAP cr = some q) (hf : cr.fetch = true) (hs : search q = []) :
    (fetchMails k (search q)).fetchReq = none ∧
    fetchStatsStep search env (some (st, warns)) (k, cr) =
      some (st ++ [(k, .count 0), (k ++ "_messages", .letters [])], warns) := by
  have hmails : fetchMails k (search q) = { fetchReq := none, warning := none } := by
    unfold fetchMails
    rw [if_pos (by rw [hs]; decide)]
  refine ⟨by rw [hmails], ?_⟩
  unfold fetchStatsStep
  rw [hq]
  dsimp only
  rw [if_pos hf, hmails, hs]
  simp

/-- C9 witness: a concrete empty search result. -/
theorem fetch_empty_ids_witness :
    (fetchMails "inbox_count" ([] : List Nat)).fetchReq = none ∧
    fetchStats (fun _ => []) (fun _ => ⟨"", ""⟩) [("inbox_count", crFetch)] =
      some ([("inbox_count", .count 0), ("inbox_count" ++ "_messages", .letters [])], []) := by
  have hq : toIMAP crFetch = some (.mk [seenFlag] [] [] []) := by
    simp [crFetch, toIMAP, mkORclause]
  have h := fetch_empty_ids (fun _ => []) (fun _ => ⟨"", ""⟩) [] []
    "inbox_count" crFetch (.mk [seenFlag] [] [] []) hq rfl rfl
  refine ⟨h.1, ?_⟩
  unfold fetchStats
  rw [List.foldl_cons, h.2, List.foldl_nil]
  simp

/-- C10: quiet mode suppresses stdout only when cache writing is also
enabled — with quiet set but write-cache unset the serialized result is
still written to stdout and the cache file is untouched; the cache file
is written exactly when the write-cache flag is set. -/
theorem writeStats_effects (quiet writeCache : Bool) (encoded : String) :
    (writeStats quiet writeCache encoded).cacheOut =
      (if writeCache then some encoded else none) ∧
    (writeStats quiet writeCache encoded).stdoutOut =
      (if quiet && writeCache then none else some encoded) := by
  cases quiet <;> cases writeCache <;> simp [writeStats]

theorem queryNodes_eq (q : SearchCriteria) : queryNodes q = q :: queryNodesPairs q.orPairs := by
  cases q
  rw [queryNodes]
  rfl

theorem queryNodes_self (q : SearchCriteria) : q ∈ queryNodes q := by
  rw [queryNodes_eq]
  exact List.mem_cons_self _ _

theorem mem_queryNodesPairs (ps : List (SearchCriteria × SearchCriteria)) (x : SearchCriteria) :
    x ∈ queryNodesPairs ps ↔ ∃ p ∈ ps, x ∈ queryNodes p.1 ∨ x ∈ queryNodes p.2 := by
  induction ps with
  | nil => simp [queryNodesPairs]
  | cons p rest ih =>
    obtain ⟨p1, p2⟩ := p
    rw [queryNodesPairs]
    simp only [List.mem_append, ih, List.mem_cons]
    constructor
    · rintro ((h | h) | ⟨p, hp, hside⟩)
      · exact ⟨(p1, p2), Or.inl rfl, Or.inl h⟩
      · exact ⟨(p1, p2), Or.inl rfl, Or.inr h⟩
      · exact ⟨p, Or.inr hp, hside⟩
    · rintro ⟨p, (rfl | hp), hside⟩
      · rcases hside with h | h
        · exact Or.inl (Or.inl h)
        · exact Or.inl (Or.inr h)
      · exact Or.inr ⟨p, hp, hside⟩

/-- Nodes of a node of a compiled tree are nodes of the tree. -/
theorem queryNodes_trans : ∀ (n : Nat) (q : SearchCriteria), sizeOf q ≤ n →
    ∀ q1 q2, q1 ∈ queryNodes q → q2 ∈ queryNodes q1 → q2 ∈ queryNodes q := by
  intro n
  induction n with
  | zero =>
    intro q hq
    cases q with
    | mk w b h ps =>
      rw [SearchCriteria.mk.sizeOf_spec] at hq
      omega
  | succ n ih =>
    intro q hq q1 q2 h1 h2
    cases q with
    | mk w b h ps =>
      rw [queryNodes_eq] at h1 ⊢
      rcases List.mem_cons.mp h1 with heq | hmem
      · subst heq
        rw [queryNodes_eq] at h2
        exact h2
      · obtain ⟨p, hp, hside⟩ :=
          (mem_queryNodesPairs (SearchCriteria.mk w b h ps).orPairs q1).mp hmem
        have hpps : p ∈ ps := hp
        have hsizep : sizeOf p < sizeOf (SearchCriteria.mk w b h ps) := by
          have hm := List.sizeOf_lt_of_mem hpps
          rw [SearchCriteria.mk.sizeOf_spec]
          omega
        obtain ⟨p1, p2⟩ := p
        have hsz : sizeOf p1 ≤ n ∧ sizeOf p2 ≤ n := by
          have := Prod.mk.sizeOf_spec p1 p2
          omega
        refine List.mem_cons_of_mem _
          ((mem_queryNodesPairs (SearchCriteria.mk w b h ps).orPairs q2).mpr ?_)
        rcases hside with hs | hs
        · exact ⟨(p1, p2), hp, Or.inl (ih p1 hsz.1 q1 q2 hs h2)⟩
        · exact ⟨(p1, p2), hp, Or.inr (ih p2 hsz.2 q1 q2 hs h2)⟩

/-- Every branch of a successful `mkORclause` call is itself compiled by
`toIMAP` and its compilation is a node of the resulting query tree. -/
theorem mkORclause_branches : ∀ (ors : List criteriaCfg) (sc q : SearchCriteria),
    sc.orPairs = [] → mkORclause sc ors = some q →
    ∀ b ∈ ors, ∃ qb, toIMAP b = some qb ∧ qb ∈ queryNodes q := by
  intro ors
  induction ors with
  | nil =>
    intro sc q hps h b hb
    simp at hb
  | cons a rest ih =>
    intro sc q hps h b hb
    rcases rest with _ | ⟨b2, rest2⟩
    · simp [mkORclause] at h
    · rcases rest2 with _ | ⟨c, rest3⟩
      · obtain ⟨qa, qb2, ha, hb2, hpairs⟩ := mkORclause_two sc a b2 q hps h
        rcases List.mem_cons.mp hb with rfl | hb
        · refine ⟨qa, ha, ?_⟩
          rw [queryNodes_eq, hpairs]
          exact List.mem_cons_of_mem _
            ((mem_queryNodesPairs _ _).mpr ⟨(qa, qb2), List.mem_singleton.mpr rfl,
              Or.inl (queryNodes_self qa)⟩)
        · rcases List.mem_singleton.mp hb with rfl
          refine ⟨qb2, hb2, ?_⟩
          rw [queryNodes_eq, hpairs]
          exact List.mem_cons_of_mem _
            ((mem_queryNodesPairs _ _).mpr ⟨(qa, qb2), List.mem_singleton.mpr rfl,
              Or.inr (queryNodes_self qb2)⟩)
      · obtain ⟨qa, wrap, ha, hw, hpairs⟩ := mkORclause_many sc a b2 c rest3 q hps h
        rcases List.mem_cons.mp hb with rfl | hb
        · refine ⟨qa, ha, ?_⟩
          rw [queryNodes_eq, hpairs]
          exact List.mem_cons_of_mem _
            ((mem_queryNodesPairs _ _).mpr ⟨(qa, wrap), List.mem_singleton.mpr rfl,
              Or.inl (queryNodes_self qa)⟩)
        · obtain ⟨qb, hqb, hmem⟩ := ih NewSearchCriteria wrap NewSearchCriteria_orPairs hw b hb
          refine ⟨qb, hqb, ?_⟩
          rw [queryNodes_eq, hpairs]
          exact List.mem_cons_of_mem _
            ((mem_queryNodesPairs _ _).mpr ⟨(qa, wrap), List.mem_singleton.mpr rfl,
              Or.inr hmem⟩)

/-- C8: the unseen restriction is decided independently at every criterion
node of the tree: a compiled criterion carries the without-Seen flag
exactly when its own seen field is false; every OR branch of a criterion
is compiled by the same translation (so, recursively, every nested
criterion node's compilation — with its own independent flag — appears as
a node of the compiled query), and node containment in the compiled query
is transitive. -/
theorem toIMAP_unseen_every_node (cr : criteriaCfg) (q : SearchCriteria)
    (hq : toIMAP cr = some q) :
    q.withoutFlags = (if cr.seen then [] else [seenFlag]) ∧
    (∀ b ∈ cr.or, ∃ qb, toIMAP b = some qb ∧ qb ∈ queryNodes q) ∧
    (∀ q1 q2, q1 ∈ queryNodes q → q2 ∈ queryNodes q1 → q2 ∈ queryNodes q) := by
  refine ⟨(toIMAP_fields cr q hq).1, ?_,
    fun q1 q2 h1 h2 => queryNodes_trans (sizeOf q) q le_rfl q1 q2 h1 h2⟩
  cases cr with
  | mk s b hh ors f =>
    rw [toIMAP_mk] at hq
    intro br hbr
    exact mkORclause_branches ors _ q (by rfl) hq br (by simpa [criteriaCfg.or] using hbr)

/-- A branch that sets seen, used in the C8 witness. -/
def crSeen : criteriaCfg := .mk true [] [] [] false

/-- The compiled form of the C8 witness criterion. -/
def qW8 : SearchCriteria := .mk [seenFlag] [] [] [(.mk [] [] [] [], qdW)]

/-- C8 witness: an unseen root with a seen OR branch — the root carries
the without-Seen flag, the branch's compilation is a node of the compiled
query and carries no flag, while the other (unseen) branch's compilation
is a node carrying the flag. -/
theorem toIMAP_unseen_every_node_witness :
    toIMAP (criteriaCfg.mk false [] [] [crSeen, defaultCriteria] false) = some qW8 ∧
    qW8.withoutFlags = [seenFlag] ∧
    toIMAP crSeen = some (.mk [] [] [] []) ∧
    (SearchCriteria.mk [] [] [] []) ∈ queryNodes qW8 ∧
    (SearchCriteria.mk [] [] [] []).withoutFlags = [] ∧
    qdW ∈ queryNodes qW8 ∧ qdW.withoutFlags = [seenFlag] := by
  have hq : toIMAP (criteriaCfg.mk false [] [] [crSeen, defaultCriteria] false) = some qW8 := by
    simp [crSeen, defaultCriteria, qW8, qdW, toIMAP, mkORclause, NewSearchCriteria,
      SearchCriteria.setOrPair]
  have h := toIMAP_unseen_every_node _ qW8 hq
  have hseen : toIMAP crSeen = some (.mk [] [] [] []) := by
    simp [crSeen, toIMAP, mkORclause]
  have hd : toIMAP defaultCriteria = some qdW := by
    simp [defaultCriteria, qdW, toIMAP, mkORclause]
  obtain ⟨qb, hqb, hmem⟩ := h.2.1 crSeen (by simp [criteriaCfg.or])
  obtain ⟨qd, hqd, hdmem⟩ := h.2.1 defaultCriteria (by simp [criteriaCfg.or])
  rw [hseen] at hqb
  rw [hd] at hqd
  obtain rfl : SearchCriteria.mk [] [] [] [] = qb := Option.some.inj hqb
  obtain rfl : qdW = qd := Option.some.inj hqd
  exact ⟨hq, rfl, hseen, hmem, rfl, hdmem, rfl⟩
